import Mathlib

/-
Shallow embedding of the OECDPillar2 ownership-ratio core
(src/app/routers/calculations.py and src/app/basic_structure_model.py).

Modelling choices:
* numpy float64 matrices are modelled as matrices over ℚ.  All concrete
  inputs used in counterexamples and witnesses are dyadic rationals, on
  which binary floating-point arithmetic in the source is exact, so the
  rational model and the float behaviour coincide there.
* Python `round(x, 6)` performs correct decimal rounding of the exact
  value of the float with ties to even; `round_half_even` below models
  that on ℚ.
* `np.allclose(a, b, atol=1e-7)` keeps the numpy default relative
  tolerance `rtol = 1e-5`; the element-wise test is
  |a - b| <= atol + rtol * |b|, modelled exactly by `npAllclose`.
* Python `set` iteration over the referenced entity indices is modelled
  as the ascending list of the distinct indices; no claim depends on
  the iteration order.
* The `while True: ... break` loop is embedded as a fuel recursion with
  fuel `max_iterations`; the loop in the source increments `iterations`
  on every pass and exits as soon as `iterations >= 1000`, so the fuel
  can never run out before the exit condition fires (the lower bound
  `1 <= iterations` proved below shows the fuel-exhaustion branch is
  never the one that returns).
-/

namespace OECDPillar2

/-- Source `UltimateParentEntityAccountingType` from basic_structure_model.py. -/
inductive UltimateParentEntityAccountingType where
  | ultimate_parent_entity
  | consolidated
  | equity_method
  | etc
deriving DecidableEq

/-- Source `EntityRequest` (basic_structure_model.py): only the two fields read by
`create_entities_index_mapping_dto` are modelled; the remaining request
fields never influence the indexer. -/
structure EntityRequest where
  name : String
  ultimate_parent_entity_accounting_type : UltimateParentEntityAccountingType
deriving DecidableEq

/-- Source `OwnershipRequest` (basic_structure_model.py); the percentage field is
validated to [0,1] by pydantic. -/
structure OwnershipRequest where
  owner_entity_name : String
  owned_entity_name : String
  ownership_percentage : ℚ
deriving DecidableEq

/-- Source `OwnershipRequestItem` (basic_structure_model.py). -/
structure OwnershipRequestItem where
  owner_entity_index : ℕ
  owned_entity_index : ℕ
  ownership_percentage : ℚ
deriving DecidableEq

/-- Source `EntitiesIndexMappingItem` (basic_structure_model.py). -/
structure EntitiesIndexMappingItem where
  entity_name : String
  entity_number : ℕ
deriving DecidableEq

/-- Source `DirectIndirectOwnershipRatioResponseItem` (basic_structure_model.py,
lines 152-156).  The source record has exactly these three fields: the two
entity names and the combined ratio (source field name
`direct_indirect_ownership_ratio`, suffixed with `_value` here). -/
structure DirectIndirectOwnershipRatioResponseItem where
  owner_entity_name : String
  owned_entity_name : String
  direct_indirect_ownership_ratio_value : ℚ
deriving DecidableEq

/-- Source `DirectIndirectOwnershipRatioResponse` (basic_structure_model.py,
lines 158-161).  The source response has exactly these two fields; in
particular it carries no `converged` flag and its items carry no
`direct_ratio` field. -/
structure DirectIndirectOwnershipRatioResponse where
  direct_indirect_ownership_ratio_items : List DirectIndirectOwnershipRatioResponseItem
  iterations : ℕ
deriving DecidableEq

/-- Sequential numbering helper: mirrors the `current_number` counter in
`create_entities_index_mapping_dto` and the `enumerate` in
`create_entities_simple_index_mapping_dto`. -/
def numberFrom (n : ℕ) : List String → List EntitiesIndexMappingItem
  | [] => []
  | s :: rest => ⟨s, n⟩ :: numberFrom (n + 1) rest

/-- Source `sorted(list(unique_entities))` (calculations.py, lines 28-36): the
distinct owner/owned names referenced in the edges, in ascending
lexicographic order (the Python `sorted` on strings compares code points,
as the Lean `String` order does). -/
def simpleSortedNames (ownerships : List OwnershipRequest) : List String :=
  List.insertionSort (fun a b => a ≤ b)
    ((ownerships.flatMap
      (fun o => [o.owner_entity_name, o.owned_entity_name])).dedup)

/-- Source `create_entities_simple_index_mapping_dto` (calculations.py, lines
25-45): the sorted distinct referenced names, enumerated from 0. -/
def create_entities_simple_index_mapping_dto (ownerships : List OwnershipRequest) :
    List EntitiesIndexMappingItem :=
  numberFrom 0 (simpleSortedNames ownerships)

/-- Source `create_entities_index_mapping_dto` (calculations.py, lines 47-99):
entities are bucketed by accounting type (the `else` branch of the source
is the `etc` bucket, which is exactly the `etc` constructor since the enum
has four values), the buckets are concatenated in priority order, and
numbers are assigned sequentially.  No uniqueness check is performed. -/
def create_entities_index_mapping_dto (entities : List EntityRequest) :
    List EntitiesIndexMappingItem :=
  let ultimate := entities.filter
    (fun e => e.ultimate_parent_entity_accounting_type =
      UltimateParentEntityAccountingType.ultimate_parent_entity)
  let consolidated := entities.filter
    (fun e => e.ultimate_parent_entity_accounting_type =
      UltimateParentEntityAccountingType.consolidated)
  let equity := entities.filter
    (fun e => e.ultimate_parent_entity_accounting_type =
      UltimateParentEntityAccountingType.equity_method)
  let etcs := entities.filter
    (fun e => e.ultimate_parent_entity_accounting_type =
      UltimateParentEntityAccountingType.etc)
  numberFrom 0 ((ultimate ++ consolidated ++ equity ++ etcs).map (fun e => e.name))

/-- Square rational matrices standing in for numpy float64 arrays. -/
abbrev Mat (n : ℕ) := Matrix (Fin n) (Fin n) ℚ

instance matDecidableEq {n : ℕ} : DecidableEq (Mat n) := fun A B =>
  decidable_of_iff (∀ i j, A i j = B i j)
    ⟨fun h => by funext i j; exact h i j, fun h i j => by rw [h]⟩

/-- Source `epsilon_for_calculation = 1e-7` (calculations.py, line 124). -/
def epsilon_for_calculation : ℚ := 1 / 10000000

/-- Source `epsilon_for_filtering = 1e-6` (calculations.py, line 125). -/
def epsilon_for_filtering : ℚ := 1 / 1000000

/-- Default relative tolerance of numpy in `np.allclose`. -/
def numpy_default_rtol : ℚ := 1 / 100000

/-- Source `max_iterations = 1000` (calculations.py, line 154). -/
def max_iterations : ℕ := 1000

/-- Source `np.allclose(A, B, atol=epsilon_for_calculation)`: element-wise
|A - B| <= atol + rtol * |B| with the numpy default rtol. -/
def npAllclose {n : ℕ} (A B : Mat n) : Prop :=
  ∀ i j, |A i j - B i j| ≤ epsilon_for_calculation + numpy_default_rtol * |B i j|

instance npAllcloseDecidable {n : ℕ} (A B : Mat n) : Decidable (npAllclose A B) := by
  unfold npAllclose; infer_instance

/-- Source `np.fill_diagonal(A, v)`: overwrite every diagonal entry with `v`
(calculations.py, line 160).  Note this is an overwrite, not an addition. -/
def fill_diagonal {n : ℕ} (A : Mat n) (v : ℚ) : Mat n :=
  fun i j => if i = j then v else A i j

/-- One pass of the loop body (calculations.py, lines 160-161):
`np.fill_diagonal(result_matrix, 1); result_matrix = result_matrix @ D`. -/
def ownershipLoopStep {n : ℕ} (D R : Mat n) : Mat n :=
  fill_diagonal R 1 * D

/-- The `while True` loop of `calculate_direct_indirect_ownership_ratio_core`
(calculations.py, lines 156-166), embedded with fuel: each pass saves the
previous matrix, applies the step, increments the counter, and exits when
`iterations >= max_iterations or np.allclose(previous, result)`. -/
def ownershipLoop {n : ℕ} (D : Mat n) : Mat n → ℕ → ℕ → Mat n × ℕ
  | R, iters, 0 => (R, iters)
  | R, iters, fuel + 1 =>
    let next := ownershipLoopStep D R
    let it := iters + 1
    if max_iterations ≤ it ∨ npAllclose R next then (next, it)
    else ownershipLoop D next it fuel

/-- The closure solver: start from `result_matrix = D` and loop
(calculations.py, lines 153-166). -/
def solveOwnership {n : ℕ} (D : Mat n) : Mat n × ℕ :=
  ownershipLoop D D 0 max_iterations

/-- The distinct entity indices referenced by some edge (`entity_indices`
set, calculations.py, lines 132-135), as an ascending list. -/
def referenced_entity_indices (os : List OwnershipRequestItem) : List ℕ :=
  List.insertionSort (fun a b => a ≤ b)
    ((os.flatMap (fun o => [o.owner_entity_index, o.owned_entity_index])).dedup)

/-- Source `max(entity_indices) if entity_indices else 0` (calculations.py,
line 138). -/
def max_entity_index (os : List OwnershipRequestItem) : ℕ :=
  (referenced_entity_indices os).foldr max 0

/-- Source `matrix_size = max_entity_index + 1` (calculations.py, line 139). -/
def matrix_size (os : List OwnershipRequestItem) : ℕ :=
  max_entity_index os + 1

/-- One assignment `matrix[owner][owned] = percentage` (calculations.py,
line 151). -/
def set_ownership_entry {n : ℕ} (M : Mat n) (o : OwnershipRequestItem) : Mat n :=
  fun i j =>
    if i.val = o.owner_entity_index ∧ j.val = o.owned_entity_index then
      o.ownership_percentage
    else M i j

/-- The direct ownership matrix (calculations.py, lines 142-151): start
from `np.zeros` and set `matrix[owner][owned] = percentage` for each edge
in input order, so a later duplicate edge overwrites an earlier one. -/
def direct_ownership_matrix (os : List OwnershipRequestItem) : Mat (matrix_size os) :=
  os.foldl set_ownership_entry 0

/-- The referenced entity indices, each packaged with its proof of being in
range of the matrix built from the same edges (every referenced index is at
most `max_entity_index`).  In numpy the indices are used directly; the
`filterMap` keeps every element, as proved below. -/
def fin_entity_indices (os : List OwnershipRequestItem) : List (Fin (matrix_size os)) :=
  (referenced_entity_indices os).filterMap
    (fun i => if h : i < matrix_size os then some ⟨i, h⟩ else none)

/-- The `entity_index_to_name` dict (calculations.py, line 129), built by a
dict comprehension over the mapping items: a later item with the same
`entity_number` overwrites an earlier one, hence the reversed `find?`.
Missing numbers (a `KeyError` in Python) are modelled as `""`; no claim
involves a lookup of an unmapped number. -/
def entity_index_to_name (mapping : List EntitiesIndexMappingItem) (i : ℕ) : String :=
  ((mapping.reverse.find? (fun it => it.entity_number = i)).map
    (fun it => it.entity_name)).getD ""

/-- Round a rational to the nearest integer with ties to even: the rounding
CPython `round` applies to the exact value of its float argument. -/
def round_half_even (q : ℚ) : ℤ :=
  let f := ⌊q⌋
  let r := q - (f : ℚ)
  if r < 1 / 2 then f
  else if 1 / 2 < r then f + 1
  else if f % 2 = 0 then f else f + 1

/-- Python `round(x, 6)` (`decimal_places = 6`, calculations.py, line 126):
scale by 10^6, round half to even, scale back. -/
def python_round6 (q : ℚ) : ℚ :=
  (round_half_even (q * 1000000) : ℚ) / 1000000

/-- The matrix returned by the loop for the given edges. -/
def closure_matrix (os : List OwnershipRequestItem) : Mat (matrix_size os) :=
  (solveOwnership (direct_ownership_matrix os)).1

/-- The record emitted for the referenced index pair `(i, j)`
(calculations.py, lines 174-185). -/
def mkRatioResponseItem (mapping : List EntitiesIndexMappingItem)
    (os : List OwnershipRequestItem) (i j : Fin (matrix_size os)) :
    DirectIndirectOwnershipRatioResponseItem :=
  ⟨entity_index_to_name mapping i.val, entity_index_to_name mapping j.val,
    python_round6 (closure_matrix os i j)⟩

/-- The result-extraction double loop (calculations.py, lines 167-185):
for each ordered pair of referenced indices, emit a record exactly when the
closure entry exceeds `epsilon_for_filtering`. -/
def ownership_result_items (mapping : List EntitiesIndexMappingItem)
    (os : List OwnershipRequestItem) :
    List DirectIndirectOwnershipRatioResponseItem :=
  (fin_entity_indices os).flatMap
    (fun i => (fin_entity_indices os).filterMap
      (fun j =>
        if epsilon_for_filtering < closure_matrix os i j then
          some (mkRatioResponseItem mapping os i j)
        else none))

/-- Source `calculate_direct_indirect_ownership_ratio_core` (calculations.py,
lines 121-187): build the direct matrix, run the loop, extract the filtered
records, and return them together with the iteration count — and nothing
else. -/
def calculate_direct_indirect_ownership_ratio_core
    (mapping : List EntitiesIndexMappingItem) (os : List OwnershipRequestItem) :
    DirectIndirectOwnershipRatioResponse :=
  ⟨ownership_result_items mapping os, (solveOwnership (direct_ownership_matrix os)).2⟩

/-- The matrix after `k` unconditional passes of the loop body, starting
from `result_matrix = D`. -/
def resultAfter {n : ℕ} (D : Mat n) : ℕ → Mat n
  | 0 => D
  | k + 1 => ownershipLoopStep D (resultAfter D k)

/-- The truncated series `D + D^2 + ... + D^k`. -/
def sumPowers {n : ℕ} (D : Mat n) (k : ℕ) : Mat n :=
  ∑ m in Finset.range k, D ^ (m + 1)

/-- A two-entity cycle with both percentages 1/2 (the values are dyadic,
so float arithmetic on them in the source is exact). -/
def cycleD : Mat 2 := fun i j => if i = j then 0 else 1/2

/-- A strictly upper-triangular (acyclic) direct matrix: one 1/2 edge. -/
def upperD : Mat 2 := fun i j => if i.val = 0 ∧ j.val = 1 then 1/2 else 0

/-- Modelled from the spec: rounding to 6 decimal places with
round-half-up semantics, the rounding rule the spec names for the result
extractor; defined only to compare against the rounding in the code. -/
def round_half_up6 (q : ℚ) : ℚ :=
  (⌊q * 1000000 + 1/2⌋ : ℚ) / 1000000

/- Batteries marks the rational operations irreducible, which blocks
kernel evaluation of concrete runs; re-open them for this development. -/
attribute [local semireducible] Rat.add Rat.mul Rat.inv Rat.sub

/- ------------------------------------------------------------------ -/
/- General lemmas about the embedded operations.                       -/
/- ------------------------------------------------------------------ -/

theorem foldl_set_ownership_entry_untouched {n : ℕ} (i j : Fin n) :
    ∀ (os : List OwnershipRequestItem) (M : Mat n),
      (∀ o ∈ os, ¬(i.val = o.owner_entity_index ∧ j.val = o.owned_entity_index)) →
      os.foldl set_ownership_entry M i j = M i j := by
  intro os
  induction os with
  | nil => intro M _; rfl
  | cons o rest ih =>
    intro M h
    have hrest : ∀ p ∈ rest, ¬(i.val = p.owner_entity_index ∧ j.val = p.owned_entity_index) :=
      fun p hp => h p (List.mem_cons_of_mem _ hp)
    have hthis := h o (List.mem_cons_self _ _)
    calc (o :: rest).foldl set_ownership_entry M i j
        = rest.foldl set_ownership_entry (set_ownership_entry M o) i j := rfl
      _ = set_ownership_entry M o i j := ih _ hrest
      _ = M i j := by simp [set_ownership_entry, hthis]

theorem mem_referenced_entity_indices (os : List OwnershipRequestItem) (a : ℕ) :
    a ∈ referenced_entity_indices os ↔
      ∃ o ∈ os, o.owner_entity_index = a ∨ o.owned_entity_index = a := by
  unfold referenced_entity_indices
  rw [(List.perm_insertionSort _ _).mem_iff, List.mem_dedup, List.mem_flatMap]
  constructor
  · rintro ⟨o, ho, hmem⟩
    refine ⟨o, ho, ?_⟩
    simpa [eq_comm] using hmem
  · rintro ⟨o, ho, hcase⟩
    exact ⟨o, ho, by simpa [eq_comm] using hcase⟩

theorem le_foldr_max (l : List ℕ) (a : ℕ) (h : a ∈ l) : a ≤ l.foldr max 0 := by
  induction l with
  | nil => cases h
  | cons b t ih =>
    rcases List.mem_cons.mp h with hb | ht
    · subst hb; exact le_max_left _ _
    · exact le_trans (ih ht) (le_max_right _ _)

theorem referenced_lt_matrix_size (os : List OwnershipRequestItem) (a : ℕ)
    (h : a ∈ referenced_entity_indices os) : a < matrix_size os :=
  Nat.lt_succ_of_le (le_foldr_max _ _ h)

theorem mem_fin_entity_indices (os : List OwnershipRequestItem)
    (i : Fin (matrix_size os)) :
    i ∈ fin_entity_indices os ↔ i.val ∈ referenced_entity_indices os := by
  unfold fin_entity_indices
  rw [List.mem_filterMap]
  constructor
  · rintro ⟨a, ha, hsome⟩
    by_cases hlt : a < matrix_size os
    · rw [dif_pos hlt] at hsome
      obtain rfl : (⟨a, hlt⟩ : Fin (matrix_size os)) = i := Option.some.inj hsome
      exact ha
    · rw [dif_neg hlt] at hsome
      exact absurd hsome (by simp)
  · intro h
    exact ⟨i.val, h, by rw [dif_pos i.isLt]⟩

theorem fin_mem_of_referenced (os : List OwnershipRequestItem) (a : ℕ)
    (h : a ∈ referenced_entity_indices os) :
    ∃ i ∈ fin_entity_indices os, Fin.val i = a :=
  ⟨⟨a, referenced_lt_matrix_size os a h⟩,
    (mem_fin_entity_indices os _).mpr h, rfl⟩

theorem ownershipLoop_snd_le {n : ℕ} (D : Mat n) :
    ∀ (fuel : ℕ) (R : Mat n) (iters : ℕ),
      (ownershipLoop D R iters fuel).2 ≤ iters + fuel := by
  intro fuel
  induction fuel with
  | zero => intro R iters; simp [ownershipLoop]
  | succ f ih =>
    intro R iters
    by_cases h : max_iterations ≤ iters + 1 ∨ npAllclose R (ownershipLoopStep D R)
    · simp only [ownershipLoop, if_pos h]; omega
    · simp only [ownershipLoop, if_neg h]
      exact le_trans (ih _ _) (by omega)

theorem ownershipLoop_one_le {n : ℕ} (D : Mat n) :
    ∀ (fuel : ℕ) (R : Mat n) (iters : ℕ), 1 ≤ fuel →
      iters + 1 ≤ (ownershipLoop D R iters fuel).2 := by
  intro fuel
  induction fuel with
  | zero => intro R iters h; omega
  | succ f ih =>
    intro R iters _
    by_cases h : max_iterations ≤ iters + 1 ∨ npAllclose R (ownershipLoopStep D R)
    · simp [ownershipLoop, h]
    · simp only [ownershipLoop, if_neg h]
      rcases Nat.eq_zero_or_pos f with hf | hf
      · subst hf; simp [ownershipLoop]
      · exact le_trans (by omega) (ih _ _ hf)

/- ------------------------------------------------------------------ -/
/- Claims.                                                             -/
/- ------------------------------------------------------------------ -/

/-- C4, counterexample.  The claim says an edge whose owner and owned
entity coincide cannot make a diagonal entry of the direct matrix
non-zero; but the builder performs no such check: the single self-edge
`(0, 0, 1/2)` (percentage within [0,1]) puts 1/2 on the diagonal. -/
theorem C4_counterexample :
    ¬ (∀ i, direct_ownership_matrix [⟨0, 0, 1/2⟩] i i = 0) := by
  decide

/-- C4, amended: if no edge is a self-loop (owner index distinct from
owned index for every edge), then every diagonal entry of the direct
ownership matrix is 0. -/
theorem C4_diagonal_zero_of_no_self_edge (os : List OwnershipRequestItem)
    (h : ∀ o ∈ os, o.owner_entity_index ≠ o.owned_entity_index) :
    ∀ i, direct_ownership_matrix os i i = 0 := by
  intro i
  unfold direct_ownership_matrix
  rw [foldl_set_ownership_entry_untouched i i os 0]
  · rfl
  · rintro o ho ⟨h1, h2⟩
    exact h o ho (h1 ▸ h2 ▸ rfl)

/-- C4, witness for the amended theorem at the single edge `(0, 1, 1/2)`. -/
theorem C4_diagonal_zero_witness :
    direct_ownership_matrix [⟨0, 1, 1/2⟩] ⟨0, by decide⟩ ⟨0, by decide⟩ = 0 :=
  C4_diagonal_zero_of_no_self_edge [⟨0, 1, 1/2⟩] (by decide) ⟨0, by decide⟩

/-- C5, counterexample.  The claim says the matrix dimension covers every
index of every mapped entity; but the dimension is computed from edge-referenced
indices only (calculations.py, lines 131-139): with mapping
`A↦0, B↦1, C↦2` and the single edge `0 → 1`, the matrix is 2×2 and the
mapped entity `C` (index 2) has no row or column. -/
theorem C5_counterexample :
    ¬ (∀ it ∈ ([⟨"A", 0⟩, ⟨"B", 1⟩, ⟨"C", 2⟩] : List EntitiesIndexMappingItem),
        it.entity_number < matrix_size [⟨0, 1, 1/2⟩]) := by
  decide

/-- C5, amended: the dimension is `max(edge-referenced index) + 1`; an
index within that range that is referenced by no edge receives a row and
a column of zeros.  (A mapped entity with a larger index receives
nothing.) -/
theorem C5_unreferenced_index_zero_row_col (os : List OwnershipRequestItem)
    (i : Fin (matrix_size os)) (h : i.val ∉ referenced_entity_indices os) :
    (∀ j, direct_ownership_matrix os i j = 0) ∧
    (∀ j, direct_ownership_matrix os j i = 0) := by
  have hnoedge : ∀ o ∈ os, o.owner_entity_index ≠ i.val ∧ o.owned_entity_index ≠ i.val := by
    intro o ho
    constructor <;> intro heq <;>
      exact h ((mem_referenced_entity_indices os i.val).mpr ⟨o, ho, by simp [heq]⟩)
  constructor <;> intro j <;> unfold direct_ownership_matrix
  · rw [foldl_set_ownership_entry_untouched i j os 0]
    · rfl
    · rintro o ho ⟨h1, _⟩
      exact (hnoedge o ho).1 h1.symm
  · rw [foldl_set_ownership_entry_untouched j i os 0]
    · rfl
    · rintro o ho ⟨_, h2⟩
      exact (hnoedge o ho).2 h2.symm

/-- C5, witness: with the single edge `0 → 2`, index 1 is in range but
unreferenced; row 1 and column 1 are zero. -/
theorem C5_unreferenced_witness :
    (1 : ℕ) ∉ referenced_entity_indices [⟨0, 2, 1/2⟩] ∧
    direct_ownership_matrix [⟨0, 2, 1/2⟩] ⟨1, by decide⟩ ⟨0, by decide⟩ = 0 ∧
    direct_ownership_matrix [⟨0, 2, 1/2⟩] ⟨0, by decide⟩ ⟨1, by decide⟩ = 0 :=
  ⟨by decide,
    (C5_unreferenced_index_zero_row_col [⟨0, 2, 1/2⟩] ⟨1, by decide⟩ (by decide)).1 ⟨0, by decide⟩,
    (C5_unreferenced_index_zero_row_col [⟨0, 2, 1/2⟩] ⟨1, by decide⟩ (by decide)).2 ⟨0, by decide⟩⟩

/-- C6: the priority indexer performs no duplicate-name check.  On the
duplicate input `[A, A]` it does not fail (it is a total function) and
assigns both entities distinct indices; the claimed
`DuplicateEntityError` does not exist anywhere in the source. -/
theorem C6_duplicate_names_accepted :
    create_entities_index_mapping_dto
      [⟨"A", UltimateParentEntityAccountingType.etc⟩,
       ⟨"A", UltimateParentEntityAccountingType.etc⟩] =
      [⟨"A", 0⟩, ⟨"A", 1⟩] := by
  decide

/-- C9: for every input, the loop of the closure solver terminates (the
embedding is a total function whose fuel equals the iteration cap; the
lower bound below shows the fuel-exhaustion branch never returns), and
the reported iteration count lies between 1 and the hard cap 1000,
whether or not the tolerance test ever passes. -/
theorem C9_solver_iteration_bounds (mapping : List EntitiesIndexMappingItem)
    (os : List OwnershipRequestItem) :
    1 ≤ (calculate_direct_indirect_ownership_ratio_core mapping os).iterations ∧
    (calculate_direct_indirect_ownership_ratio_core mapping os).iterations ≤ max_iterations := by
  constructor
  · exact ownershipLoop_one_le (direct_ownership_matrix os) max_iterations
      (direct_ownership_matrix os) 0 (by norm_num [max_iterations])
  · simpa using ownershipLoop_snd_le (direct_ownership_matrix os) max_iterations
      (direct_ownership_matrix os) 0

theorem fill_diagonal_eq_one_add {n : ℕ} (R : Mat n) (h : ∀ i, R i i = 0) :
    fill_diagonal R 1 = 1 + R := by
  funext i j
  by_cases hij : i = j
  · subst hij
    simp [fill_diagonal, Matrix.add_apply, Matrix.one_apply, h]
  · simp [fill_diagonal, hij, Matrix.add_apply, Matrix.one_apply]

theorem sumPowers_diag_zero {n : ℕ} (D : Mat n) (k : ℕ)
    (h : ∀ m, 1 ≤ m → m ≤ k → ∀ i, (D ^ m) i i = 0) :
    ∀ i, sumPowers D k i i = 0 := by
  intro i
  unfold sumPowers
  rw [Matrix.sum_apply]
  refine Finset.sum_eq_zero ?_
  intro m hm
  have hmk := Finset.mem_range.mp hm
  exact h (m + 1) (by omega) (by omega) i

/-- C1, counterexample.  For the two-entity cycle with weights 1/2
(entries in [0,1]), the loop stops after iteration 2, so `k = 2` is
reached; but the matrix after 2 iterations is not `D + D^2 + D^3`, and
the second step is not `(I + R_prev) · D` either: overwriting the
diagonal with 1 is not adding the identity once the accumulated matrix
has picked up non-zero diagonal mass from the cycle. -/
theorem C1_counterexample :
    (∀ i j, 0 ≤ cycleD i j ∧ cycleD i j ≤ 1) ∧
    (solveOwnership cycleD).2 = 2 ∧
    (solveOwnership cycleD).1 = resultAfter cycleD 2 ∧
    resultAfter cycleD 2 ≠ sumPowers cycleD 3 ∧
    ownershipLoopStep cycleD (resultAfter cycleD 1) ≠
      (1 + resultAfter cycleD 1) * cycleD := by
  decide

/-- C1, amended: as long as every power `D^m` (1 ≤ m ≤ k) has zero
diagonal — in particular for every acyclic ownership graph — the
accumulated matrix keeps a zero diagonal, the diagonal overwrite does
equal adding the identity, and after `k` iterations the matrix equals
`D + D^2 + ... + D^(k+1)`. -/
theorem C1_series_of_zero_diag_powers (n : ℕ) (k : ℕ) (D : Mat n)
    (_hrange : ∀ i j, 0 ≤ D i j ∧ D i j ≤ 1)
    (hdiag : ∀ m, 1 ≤ m → m ≤ k → ∀ i, (D ^ m) i i = 0) :
    resultAfter D k = sumPowers D (k + 1) := by
  induction k with
  | zero =>
    show D = sumPowers D 1
    simp [sumPowers, Finset.sum_range_one, pow_one]
  | succ k ih =>
    have hk := ih (fun m h1 h2 => hdiag m h1 (by omega))
    show ownershipLoopStep D (resultAfter D k) = sumPowers D (k + 2)
    rw [hk]
    unfold ownershipLoopStep
    rw [fill_diagonal_eq_one_add _
      (sumPowers_diag_zero D (k + 1) (fun m h1 h2 => hdiag m h1 (by omega)))]
    rw [add_mul, one_mul]
    unfold sumPowers
    rw [Finset.sum_mul]
    have hpow : ∀ m ∈ Finset.range (k + 1), D ^ (m + 1) * D = D ^ (m + 1 + 1) :=
      fun m _ => (pow_succ D (m + 1)).symm
    rw [Finset.sum_congr rfl hpow,
      Finset.sum_range_succ' (fun m => D ^ (m + 1)) (k + 1), add_comm]
    simp

/-- C1, witness for the amended theorem: an acyclic one-edge matrix with
entries in [0,1] and zero-diagonal powers, at `k = 2`. -/
theorem C1_series_witness : resultAfter upperD 2 = sumPowers upperD 3 :=
  C1_series_of_zero_diag_powers 2 2 upperD (by decide)
    (by intro m h1 h2; interval_cases m <;> decide)

theorem mem_ownership_result_items (mapping : List EntitiesIndexMappingItem)
    (os : List OwnershipRequestItem) (it : DirectIndirectOwnershipRatioResponseItem) :
    it ∈ ownership_result_items mapping os ↔
      ∃ i ∈ fin_entity_indices os, ∃ j ∈ fin_entity_indices os,
        epsilon_for_filtering < closure_matrix os i j ∧
        it = mkRatioResponseItem mapping os i j := by
  unfold ownership_result_items
  rw [List.mem_flatMap]
  constructor
  · rintro ⟨i, hi, hmem⟩
    rw [List.mem_filterMap] at hmem
    obtain ⟨j, hj, hsome⟩ := hmem
    by_cases hc : epsilon_for_filtering < closure_matrix os i j
    · rw [if_pos hc] at hsome
      exact ⟨i, hi, j, hj, hc, (Option.some.inj hsome).symm⟩
    · rw [if_neg hc] at hsome
      cases hsome
  · rintro ⟨i, hi, j, hj, hc, rfl⟩
    exact ⟨i, hi, List.mem_filterMap.mpr ⟨j, hj, by rw [if_pos hc]⟩⟩

/-- C3, counterexample to the round-half-up part.  With the single edge
`A → B` of percentage 1/128 (exactly representable in binary floating
point, and `1/128 · 10^6 = 7812.5` is an exact tie), the code emits
7812/10^6 — the Python `round` ties to even — while rounding half up as
the claim states would give 7813/10^6. -/
theorem C3_counterexample :
    (calculate_direct_indirect_ownership_ratio_core
        [⟨"A", 0⟩, ⟨"B", 1⟩] [⟨0, 1, 1/128⟩]).direct_indirect_ownership_ratio_items =
      [⟨"A", "B", 7812/1000000⟩] ∧
    closure_matrix [⟨0, 1, 1/128⟩] ⟨0, by decide⟩ ⟨1, by decide⟩ = 1/128 ∧
    round_half_up6 (1/128) = 7813/1000000 ∧
    (7812/1000000 : ℚ) ≠ 7813/1000000 := by
  decide

/-- C3, amended: for referenced index pairs `(i, j)` the extractor emits
the record for `(i, j)` exactly when the closure entry exceeds the 1e-6
filter, and the emitted combined ratio is the closure entry rounded to 6
decimal places with ties to even (as Python rounds), not half-up.  The
first conjunct says every referenced index is covered by the traversal. -/
theorem C3_emission_characterization (mapping : List EntitiesIndexMappingItem)
    (os : List OwnershipRequestItem) :
    (∀ a ∈ referenced_entity_indices os, ∃ i ∈ fin_entity_indices os, Fin.val i = a) ∧
    (∀ i ∈ fin_entity_indices os, ∀ j ∈ fin_entity_indices os,
      epsilon_for_filtering < closure_matrix os i j →
      mkRatioResponseItem mapping os i j ∈
        (calculate_direct_indirect_ownership_ratio_core mapping
          os).direct_indirect_ownership_ratio_items) ∧
    (∀ it ∈ (calculate_direct_indirect_ownership_ratio_core mapping
        os).direct_indirect_ownership_ratio_items,
      ∃ i ∈ fin_entity_indices os, ∃ j ∈ fin_entity_indices os,
        epsilon_for_filtering < closure_matrix os i j ∧
        it = mkRatioResponseItem mapping os i j) := by
  refine ⟨fin_mem_of_referenced os, ?_, ?_⟩
  · intro i hi j hj hc
    exact (mem_ownership_result_items mapping os _).mpr ⟨i, hi, j, hj, hc, rfl⟩
  · intro it hit
    exact (mem_ownership_result_items mapping os it).mp hit

/-- C3, witness: for the single edge `A → B` with percentage 1/2, the
record for the referenced pair `(0, 1)` is emitted. -/
theorem C3_emission_witness :
    mkRatioResponseItem [⟨"A", 0⟩, ⟨"B", 1⟩] [⟨0, 1, 1/2⟩] ⟨0, by decide⟩ ⟨1, by decide⟩ ∈
      (calculate_direct_indirect_ownership_ratio_core
        [⟨"A", 0⟩, ⟨"B", 1⟩] [⟨0, 1, 1/2⟩]).direct_indirect_ownership_ratio_items :=
  (C3_emission_characterization [⟨"A", 0⟩, ⟨"B", 1⟩] [⟨0, 1, 1/2⟩]).2.1
    ⟨0, by decide⟩ (by decide) ⟨1, by decide⟩ (by decide) (by decide)

/-- C7, counterexample.  The emitted record type has no `direct_ratio`
field, and no reading of the records can supply one: the identical
record `⟨"A", "B", 1/2⟩` is emitted both for a direct 1/2 edge (where
the claim requires the field to be the non-zero `D[i][j] = 1/2`) and for
a purely indirect 1/2 chain (where the claim requires the field to be
absent because `D[i][j] = 0`), so no function of the emitted record
realises the claimed field. -/
theorem C7_counterexample :
    ¬ ∃ g : DirectIndirectOwnershipRatioResponseItem → Option ℚ,
      ∀ (mapping : List EntitiesIndexMappingItem) (os : List OwnershipRequestItem)
        (i j : Fin (matrix_size os)),
        i ∈ fin_entity_indices os → j ∈ fin_entity_indices os →
        mkRatioResponseItem mapping os i j ∈
          (calculate_direct_indirect_ownership_ratio_core mapping
            os).direct_indirect_ownership_ratio_items →
        g (mkRatioResponseItem mapping os i j) =
          (if direct_ownership_matrix os i j = 0 then none
           else some (direct_ownership_matrix os i j)) := by
  rintro ⟨g, hg⟩
  have h1 := hg [⟨"A", 0⟩, ⟨"B", 1⟩] [⟨0, 1, 1/2⟩]
    ⟨0, by decide⟩ ⟨1, by decide⟩ (by decide) (by decide) (by decide)
  have h2 := hg [⟨"A", 0⟩, ⟨"B", 1⟩, ⟨"C", 2⟩] [⟨0, 2, 1⟩, ⟨2, 1, 1/2⟩]
    ⟨0, by decide⟩ ⟨1, by decide⟩ (by decide) (by decide) (by decide)
  rw [show mkRatioResponseItem [⟨"A", 0⟩, ⟨"B", 1⟩] [⟨0, 1, 1/2⟩]
        ⟨0, by decide⟩ ⟨1, by decide⟩ = ⟨"A", "B", 1/2⟩ from by decide,
      if_neg (show ¬ direct_ownership_matrix [⟨0, 1, 1/2⟩] ⟨0, by decide⟩ ⟨1, by decide⟩ = 0
        from by decide)] at h1
  rw [show mkRatioResponseItem [⟨"A", 0⟩, ⟨"B", 1⟩, ⟨"C", 2⟩] [⟨0, 2, 1⟩, ⟨2, 1, 1/2⟩]
        ⟨0, by decide⟩ ⟨1, by decide⟩ = ⟨"A", "B", 1/2⟩ from by decide,
      if_pos (show direct_ownership_matrix [⟨0, 2, 1⟩, ⟨2, 1, 1/2⟩]
          ⟨0, by decide⟩ ⟨1, by decide⟩ = 0 from by decide)] at h2
  exact Option.noConfusion (h1.symm.trans h2)

/-- C7, amended: every emitted record consists of exactly the owner
name, the owned name and the rounded combined ratio for some referenced
index pair; no direct-ratio component is emitted. -/
theorem C7_records_carry_only_combined (mapping : List EntitiesIndexMappingItem)
    (os : List OwnershipRequestItem) :
    ∀ it ∈ (calculate_direct_indirect_ownership_ratio_core mapping
        os).direct_indirect_ownership_ratio_items,
      ∃ i ∈ fin_entity_indices os, ∃ j ∈ fin_entity_indices os,
        it = mkRatioResponseItem mapping os i j := by
  intro it hit
  obtain ⟨i, hi, j, hj, _, rfl⟩ := (mem_ownership_result_items mapping os it).mp hit
  exact ⟨i, hi, j, hj, rfl⟩

/-- C7, witness for the amended theorem at the single 1/2 edge. -/
theorem C7_records_witness :
    ∃ i ∈ fin_entity_indices [⟨0, 1, 1/2⟩], ∃ j ∈ fin_entity_indices [⟨0, 1, 1/2⟩],
      (⟨"A", "B", 1/2⟩ : DirectIndirectOwnershipRatioResponseItem) =
        mkRatioResponseItem [⟨"A", 0⟩, ⟨"B", 1⟩] [⟨0, 1, 1/2⟩] i j :=
  C7_records_carry_only_combined [⟨"A", 0⟩, ⟨"B", 1⟩] [⟨0, 1, 1/2⟩]
    ⟨"A", "B", 1/2⟩ (by decide)

theorem numberFrom_map_name : ∀ (l : List String) (n : ℕ),
    (numberFrom n l).map (fun p => p.entity_name) = l := by
  intro l
  induction l with
  | nil => intro n; rfl
  | cons s rest ih => intro n; simp [numberFrom, ih]

theorem numberFrom_length (l : List String) (n : ℕ) :
    (numberFrom n l).length = l.length := by
  have := congrArg List.length (numberFrom_map_name l n)
  simpa using this

theorem numberFrom_map_number : ∀ (l : List String) (n : ℕ),
    (numberFrom n l).map (fun p => p.entity_number) = List.range' n l.length := by
  intro l
  induction l with
  | nil => intro n; rfl
  | cons s rest ih => intro n; simp [numberFrom, ih, List.range']

theorem mem_numberFrom : ∀ (l : List String) (n : ℕ) (p : EntitiesIndexMappingItem),
    p ∈ numberFrom n l ↔ ∃ k, ∃ hk : k < l.length, p = ⟨l.get ⟨k, hk⟩, n + k⟩ := by
  intro l
  induction l with
  | nil => intro n p; simp [numberFrom]
  | cons s rest ih =>
    intro n p
    simp only [numberFrom, List.mem_cons, ih]
    constructor
    · rintro (rfl | ⟨k, hk, rfl⟩)
      · exact ⟨0, by simp, by simp⟩
      · refine ⟨k + 1, by simpa using Nat.succ_lt_succ hk, ?_⟩
        simp [List.get]
        omega
    · rintro ⟨k, hk, rfl⟩
      cases k with
      | zero => left; simp [List.get]
      | succ k =>
        right
        refine ⟨k, by simpa using Nat.lt_of_succ_lt_succ hk, ?_⟩
        simp [List.get]
        omega

theorem simpleSortedNames_sorted (os : List OwnershipRequest) :
    (simpleSortedNames os).Sorted (fun a b => a ≤ b) :=
  List.sorted_insertionSort _ _

theorem simpleSortedNames_nodup (os : List OwnershipRequest) :
    (simpleSortedNames os).Nodup :=
  ((List.perm_insertionSort _ _).nodup_iff).mpr (List.nodup_dedup _)

theorem mem_simpleSortedNames (os : List OwnershipRequest) (s : String) :
    s ∈ simpleSortedNames os ↔
      ∃ o ∈ os, o.owner_entity_name = s ∨ o.owned_entity_name = s := by
  unfold simpleSortedNames
  rw [(List.perm_insertionSort _ _).mem_iff, List.mem_dedup, List.mem_flatMap]
  constructor
  · rintro ⟨o, ho, hmem⟩
    exact ⟨o, ho, by simpa [eq_comm] using hmem⟩
  · rintro ⟨o, ho, hcase⟩
    exact ⟨o, ho, by simpa [eq_comm] using hcase⟩

theorem simpleSortedNames_sorted_lt (os : List OwnershipRequest) :
    (simpleSortedNames os).Sorted (fun a b => a < b) := by
  have h1 : (simpleSortedNames os).Pairwise (fun a b => a ≤ b) :=
    simpleSortedNames_sorted os
  have h2 : (simpleSortedNames os).Pairwise (fun a b => a ≠ b) :=
    simpleSortedNames_nodup os
  exact (h1.and h2).imp (fun hab => lt_of_le_of_ne hab.1 hab.2)

/-- C8: for a non-empty edge list, the simple (name-only) indexer is a
bijection from the referenced names onto `[0, n)`: the listed names are
distinct, a name is listed exactly when some edge references it, the
assigned numbers are exactly `0, 1, ..., n-1` in order, and name `a`
gets a smaller number than name `b` exactly when `a` precedes `b`
lexicographically. -/
theorem C8_simple_indexer_bijection (os : List OwnershipRequest) (_hne : os ≠ []) :
    ((create_entities_simple_index_mapping_dto os).map (fun p => p.entity_name)).Nodup ∧
    (∀ s : String,
      s ∈ (create_entities_simple_index_mapping_dto os).map (fun p => p.entity_name) ↔
      ∃ o ∈ os, o.owner_entity_name = s ∨ o.owned_entity_name = s) ∧
    (create_entities_simple_index_mapping_dto os).map (fun p => p.entity_number) =
      List.range (create_entities_simple_index_mapping_dto os).length ∧
    (∀ p ∈ create_entities_simple_index_mapping_dto os,
     ∀ q ∈ create_entities_simple_index_mapping_dto os,
      (p.entity_name < q.entity_name ↔ p.entity_number < q.entity_number)) := by
  unfold create_entities_simple_index_mapping_dto
  rw [numberFrom_map_name, numberFrom_map_number, numberFrom_length]
  refine ⟨simpleSortedNames_nodup os, fun s => mem_simpleSortedNames os s,
    by rw [List.range_eq_range'], ?_⟩
  intro p hp q hq
  obtain ⟨kp, hkp, rfl⟩ := (mem_numberFrom _ 0 p).mp hp
  obtain ⟨kq, hkq, rfl⟩ := (mem_numberFrom _ 0 q).mp hq
  have hmono := (simpleSortedNames_sorted_lt os).get_strictMono
  simp only [Nat.zero_add]
  constructor
  · intro hlt
    rcases Nat.lt_trichotomy kp kq with h | h | h
    · exact h
    · exact absurd hlt (by simp [h])
    · have : (simpleSortedNames os).get ⟨kq, hkq⟩ < (simpleSortedNames os).get ⟨kp, hkp⟩ :=
        hmono (by exact Fin.mk_lt_mk.mpr h)
      exact absurd hlt (not_lt_of_gt this)
  · intro hlt
    exact hmono (Fin.mk_lt_mk.mpr hlt)

/-- C8, witness at the single edge `B → A` (so the union of names is
`{A, B}`, sorted to `[A, B]`). -/
theorem C8_simple_indexer_witness :
    ((create_entities_simple_index_mapping_dto [⟨"B", "A", 1/2⟩]).map
      (fun p => p.entity_name)).Nodup :=
  (C8_simple_indexer_bijection [⟨"B", "A", 1/2⟩] (by decide)).1

/-- C10: with an empty edge list the core computation is total and
benign: the guarded maximum yields a 1×1 zero matrix, the loop converges
after exactly one iteration, and the response is an empty record list
with iteration count 1. -/
theorem C10_empty_edges (mapping : List EntitiesIndexMappingItem) :
    matrix_size ([] : List OwnershipRequestItem) = 1 ∧
    direct_ownership_matrix ([] : List OwnershipRequestItem) = 0 ∧
    calculate_direct_indirect_ownership_ratio_core mapping [] = ⟨[], 1⟩ :=
  ⟨rfl, rfl, rfl⟩

set_option maxRecDepth 1000000 in
set_option maxHeartbeats 4000000 in
/-- C2: the response type (`DirectIndirectOwnershipRatioResponse`,
embedded above with exactly the two fields of the source model) carries
no `converged` flag.  Here is a run that hits the 1000-iteration cap
without the tolerance check ever passing — the unit-weight cycle
`0 → 1 → 2 → 1` keeps growing an entry by 1 per iteration — and the
returned response reports `iterations = 1000` with nothing marking the
result as a capped approximation. -/
theorem C2_capped_run_unflagged :
    (calculate_direct_indirect_ownership_ratio_core
      [⟨"A", 0⟩, ⟨"B", 1⟩, ⟨"C", 2⟩]
      [⟨0, 1, 1⟩, ⟨1, 2, 1⟩, ⟨2, 1, 1⟩]).iterations = 1000 := by
  decide

end OECDPillar2
